import Mathlib

/-!
Shallow embedding of the sophon-agent research loop
(`src/agent/graph.py` and `src/utils/model_config_loader.py`).

Pure fragments of the Python code are translated into executable Lean
definitions; stateful code (the LLM-client cache) is explicit state
passing; Python exceptions become `Except`; the external behaviour of
the search-provider and model capabilities is a parameter (`SearchEnv`,
oracle functions).
-/

namespace Sophon

/-- Role of a conversation message; the repository's conversation
histories hold `HumanMessage` ("user") and `AIMessage` ("assistant")
entries. -/
inductive Role where
  | user
  | assistant
deriving DecidableEq, Repr

/-- A role-tagged conversation message. -/
structure Message where
  role : Role
  content : String
deriving DecidableEq, Repr

/-- Rendering of one message inside `get_research_topic`'s `else`
branch: the Python code appends `f"User: {content}\n"` for a
`HumanMessage` and `f"Assistant: {content}\n"` for an `AIMessage`
(note the trailing newline appended after each message). -/
def renderMessage (m : Message) : String :=
  match m.role with
  | .user => "User: " ++ m.content ++ "\n"
  | .assistant => "Assistant: " ++ m.content ++ "\n"

/-- `get_research_topic` (graph.py:96-110): one message → its raw
content (`messages[-1].content`); otherwise the accumulation of
`renderMessage` over the messages in order, starting from `""`. -/
def get_research_topic (messages : List Message) : String :=
  if messages.length = 1 then
    (messages.getLast?.map Message.content).getD ""
  else
    messages.foldl (fun acc m => acc ++ renderMessage m) ""

/-- The topic formula as the spec words it for histories longer than
one message: each message rendered as `"<Role>: <content>"` (no
trailing newline) and the renderings joined by newlines. Used only to
compare the spec's wording against `get_research_topic`. -/
def spec_topic_joined (messages : List Message) : String :=
  String.intercalate "\n" (messages.map fun m =>
    match m.role with
    | .user => "User: " ++ m.content
    | .assistant => "Assistant: " ++ m.content)

/-- Standardized search result produced by the provider helpers
(graph.py:45-50): `{title, content, url, source}`. -/
structure SearchResult where
  title : String
  content : String
  url : String
  source : String
deriving DecidableEq, Repr

/-- A raw result dict as returned by the Tavily client, before the
helper normalizes it. -/
structure RawResult where
  title : String
  content : String
  url : String
deriving DecidableEq, Repr

/-- External behaviour of the three search-provider clients for one
run: each either returns data or raises (modelled as `Except.error`).
Tavily returns a result list; DuckDuckGo and ArXiv return a single
string. -/
structure SearchEnv where
  tavily : String → Except String (List RawResult)
  duckduckgo : String → Except String String
  arxiv : String → Except String String

/-- `_search_with_tavily` (graph.py:33-54): run the client, normalize
each raw result, and catch any exception by returning `[]`. -/
def _search_with_tavily (env : SearchEnv) (query : String) : List SearchResult :=
  match env.tavily query with
  | .ok results => results.map fun r => ⟨r.title, r.content, r.url, "tavily"⟩
  | .error _ => []

/-- `_search_with_duckduckgo` (graph.py:57-72): wrap the single string
result into one record; catch any exception by returning `[]`. The
Python function takes exactly one parameter (`query`). -/
def _search_with_duckduckgo (env : SearchEnv) (query : String) : List SearchResult :=
  match env.duckduckgo query with
  | .ok result => [⟨"DuckDuckGo搜索: " ++ query, result, "https://duckduckgo.com", "duckduckgo"⟩]
  | .error _ => []

/-- `_search_with_arxiv` (graph.py:75-94): wrap the single string
result into one record; catch any exception by returning `[]`. -/
def _search_with_arxiv (env : SearchEnv) (query : String) : List SearchResult :=
  match env.arxiv query with
  | .ok result => [⟨"ArXiv搜索: " ++ query, result, "https://arxiv.org", "arxiv"⟩]
  | .error _ => []

/-- Python's `str.lower()` on the ASCII engine names, character by
character. -/
def pyLower (s : String) : String :=
  String.mk (s.data.map Char.toLower)

/-- One iteration of the engine dispatch in `web_research`
(graph.py:180-189), before the surrounding `try`/`except` is applied:
`none` is the `else: continue` branch for an unknown engine name; the
duckduckgo branch is `Except.error` for every environment because
graph.py:185 calls the one-parameter `_search_with_duckduckgo` with
two arguments (`search_query, configurable`), which raises `TypeError`
before the helper body can run. -/
def engine_branch (env : SearchEnv) (query : String) (engine : String) :
    Option (Except String (List SearchResult)) :=
  if pyLower engine = "tavily" then
    some (.ok (_search_with_tavily env query))
  else if pyLower engine = "duckduckgo" then
    some (.error "TypeError: _search_with_duckduckgo() takes 1 positional argument but 2 were given")
  else if pyLower engine = "arxiv" then
    some (.ok (_search_with_arxiv env query))
  else
    none

/-- The results one engine contributes to `all_search_results`: an
unknown engine contributes nothing (`continue`), and an exception is
caught by the `except` at graph.py:193-196, which logs and continues,
so the engine contributes nothing either. -/
def engine_contribution (env : SearchEnv) (query : String) (engine : String) :
    List SearchResult :=
  match engine_branch env query engine with
  | none => []
  | some (.ok results) => results
  | some (.error _) => []

/-- The aggregation loop of `web_research` (graph.py:180-196):
`all_search_results` starts empty and each engine's results are
appended in enumeration order via `extend`. -/
def web_research_aggregate (env : SearchEnv) (engines : List String) (query : String) :
    List SearchResult :=
  engines.foldl (fun acc engine => acc ++ engine_contribution env query engine) []

/-- The snippet rule applied at graph.py:223:
`content[:200] + '...' if len(content) > 200 else content`
(Python slices strings by code point, hence `List.take` on the
character data). -/
def truncate_content (content : String) : String :=
  if content.length > 200 then String.mk (content.data.take 200) ++ "..." else content

/-- Record shape appended to `sources_gathered` (graph.py:220-224). -/
structure SourceRecord where
  url : String
  title : String
  content : String
deriving DecidableEq, Repr

/-- The record built from one search result at graph.py:220-224. -/
def make_source (r : SearchResult) : SourceRecord :=
  ⟨r.url, r.title, truncate_content r.content⟩

/-- The `sources_gathered` loop of `web_research` (graph.py:218-224):
every aggregated result whose `url` is truthy (non-empty) yields a
record, in aggregation order. -/
def sources_from_results (results : List SearchResult) : List SourceRecord :=
  results.foldl (fun acc r => if r.url != "" then acc ++ [make_source r] else acc) []

/-- The rendering of one enumerated result (0-based index `p.1`,
result `p.2`) inside the prompt context block (graph.py:209):
`f"{i+1}. {title}\n{content}\n来源: {url}\n\n"`. -/
def render_result (p : Nat × SearchResult) : String :=
  toString (p.1 + 1) ++ ". " ++ p.2.title ++ "\n" ++ p.2.content ++ "\n来源: " ++ p.2.url
    ++ "\n\n"

/-- The `search_context` block of `web_research` (graph.py:207-209):
header plus the enumerated rendering of `all_search_results[:10]`. -/
def search_context (results : List SearchResult) : String :=
  (results.take 10).enum.foldl (fun acc p => acc ++ render_result p) "\n\n搜索结果:\n"

/-- A `Send("web_research", {"search_query": ..., "id": ...})` fan-out
task (graph.py:153 and graph.py:296-302). -/
structure SendTask where
  search_query : String
  id : Nat
deriving DecidableEq, Repr

/-- Structured output of the reflection model call
(`Reflection` schema, used at graph.py:259-264). -/
structure ReflectionOutput where
  is_sufficient : Bool
  knowledge_gap : String
  follow_up_queries : List String
deriving DecidableEq, Repr

/-- The state read by `evaluate_research` (graph.py:270-304): the
fields of the dict returned by the `reflection` node, plus the per-run
`max_research_loops` override that the merged graph state carries
(`state.get("max_research_loops")`, absent modelled as `none`). -/
structure ReflectionState where
  is_sufficient : Bool
  knowledge_gap : String
  follow_up_queries : List String
  research_loop_count : Nat
  number_of_ran_queries : Nat
  max_research_loops : Option Nat
deriving DecidableEq, Repr

/-- The run-scoped graph state fields that the loop nodes read and
write (usage in graph.py; the TypedDict declarations live outside the
sources in scope). -/
structure OverallState where
  search_query : List String
  web_research_result : List String
  research_loop_count : Nat
  max_research_loops : Option Nat
deriving DecidableEq, Repr

/-- `reflection` (graph.py:233-267): increments the loop count, asks
the model (whose structured output is the `result` parameter here),
and returns the reflection fields; `number_of_ran_queries` is the
length of `state["search_query"]` at this point.
`max_research_loops` is carried through from the run state unchanged. -/
def reflection (state : OverallState) (result : ReflectionOutput) : ReflectionState :=
  { is_sufficient := result.is_sufficient
    knowledge_gap := result.knowledge_gap
    follow_up_queries := result.follow_up_queries
    research_loop_count := state.research_loop_count + 1
    number_of_ran_queries := state.search_query.length
    max_research_loops := state.max_research_loops }

/-- The routing outcome of `evaluate_research`: either the literal
`"finalize_answer"` or the list of `Send` tasks. -/
inductive Route where
  | finalize_answer
  | web_research (sends : List SendTask)
deriving DecidableEq, Repr

/-- `true` when the route is another web-research fan-out. -/
def Route.continues : Route → Bool
  | .finalize_answer => false
  | .web_research _ => true

/-- `continue_to_web_research` (graph.py:147-155): one `Send` per
generated query, ids assigned by enumeration order. -/
def continue_to_web_research (query_list : List String) : List SendTask :=
  query_list.enum.map fun p => ⟨p.2, p.1⟩

/-- `evaluate_research` (graph.py:270-304): take the per-run override
when present, else the configured default; finalize when sufficient or
the loop count has reached the bound, else fan out the follow-up
queries with ids continuing from `number_of_ran_queries`. -/
def evaluate_research (state : ReflectionState) (configured_max : Nat) : Route :=
  let max_research_loops := state.max_research_loops.getD configured_max
  if state.is_sufficient || state.research_loop_count ≥ max_research_loops then
    .finalize_answer
  else
    .web_research (state.follow_up_queries.enum.map fun p =>
      ⟨p.2, state.number_of_ran_queries + p.1⟩)

/-- One reflection-and-route cycle of the compiled graph
(web_research fan-in → reflection → evaluate_research), iterated with
fuel. Each continuing round appends one `search_query` entry per
`Send` (graph.py:228 under the state's list reducer) before the next
reflection. Returns (number of reflection rounds run, final
`research_loop_count`). The `oracle` gives the reflection model's
structured output for each round, indexed by the loop count before
the increment. -/
def research_run (fuel : Nat) (configured_max : Nat) (state : OverallState)
    (oracle : Nat → ReflectionOutput) : Nat × Nat :=
  match fuel with
  | 0 => (0, state.research_loop_count)
  | fuel' + 1 =>
    let rst := reflection state (oracle state.research_loop_count)
    match evaluate_research rst configured_max with
    | .finalize_answer => (1, rst.research_loop_count)
    | .web_research sends =>
      let state' : OverallState :=
        { state with
          research_loop_count := rst.research_loop_count
          search_query := state.search_query ++ sends.map SendTask.search_query }
      let rest := research_run fuel' configured_max state' oracle
      (rest.1 + 1, rest.2)

/-- Python's `sub in s` on strings: some split point of `s` has `sub`
as a contiguous prefix of the remainder. -/
def containsSubstr (s sub : String) : Bool :=
  (List.range (s.data.length + 1)).any fun i => sub.data.isPrefixOf (s.data.drop i)

/-- The source filter of `finalize_answer` (graph.py:335-338): keep a
gathered source iff its `url` occurs literally in the generated answer
text (`source["url"] in result.content`), in original order. -/
def finalize_sources (sources : List SourceRecord) (answer_text : String) :
    List SourceRecord :=
  sources.foldl (fun acc s => if containsSubstr answer_text s.url then acc ++ [s] else acc) []

/-- A YAML scalar appearing in a model-configuration entry. -/
inductive ConfigValue where
  | str (s : String)
  | num (q : ℚ)
  | bool (b : Bool)
deriving DecidableEq, Repr

/-- A named model-configuration entry / the keyword dict handed to the
client constructor: an insertion-ordered key-value mapping. -/
abbrev Params := List (String × ConfigValue)

/-- Python `k in dict`. -/
def hasKey (ps : Params) (k : String) : Bool :=
  ps.any fun p => p.1 == k

/-- Python `dict[k]` as an `Option` (first matching key). -/
def getVal (ps : Params) (k : String) : Option ConfigValue :=
  (ps.find? fun p => p.1 == k).map Prod.snd

/-- One `if key not in llm_params: llm_params[key] = value` statement
(a Python dict assignment on a missing key appends it). -/
def add_default (ps : Params) (k : String) (v : ConfigValue) : Params :=
  if hasKey ps k then ps else ps ++ [(k, v)]

/-- The parameter construction inside `ModelConfigLoader.get_llm`
(model_config_loader.py:76-84): copy the named entry, then add
`temperature = 0.7`, `max_retries = 2`, `streaming = False`, each only
when its key is absent. -/
def apply_defaults (llm_config : Params) : Params :=
  add_default
    (add_default
      (add_default llm_config "temperature" (.num (7 / 10)))
      "max_retries" (.num 2))
    "streaming" (.bool false)

/-- Parsed content of `conf.yaml`: the `llms` section may be missing
(model_config_loader.py:53-54). -/
structure ConfigData where
  llms : Option (List (String × Params))
deriving DecidableEq, Repr

/-- The mutable fields of a `ModelConfigLoader`, plus two
instrumentation counters not in the source: `builds` counts client
constructions (`ChatOpenAI(**llm_params)` at line 87) and `file_reads`
counts configuration-file reads (the `open` at line 34), so that
"no rebuild / no re-read" is observable in the model. A constructed
client is represented by its constructor parameters. -/
structure LoaderState where
  config : Option ConfigData
  llm_cache : List (String × Params)
  builds : Nat
  file_reads : Nat
deriving DecidableEq, Repr

/-- Lookup in the client cache (`self._llm_cache[llm_name]`). -/
def cacheLookup (cache : List (String × Params)) (k : String) : Option Params :=
  (cache.find? fun p => p.1 == k).map Prod.snd

/-- Python dict assignment `self._llm_cache[llm_name] = llm`: replace
in place when the key exists, else append. -/
def cacheInsert (cache : List (String × Params)) (k : String) (v : Params) :
    List (String × Params) :=
  if cache.any (fun p => p.1 == k) then
    cache.map fun p => if p.1 == k then (k, v) else p
  else
    cache ++ [(k, v)]

/-- `ModelConfigLoader.load_config` (lines 24-37): return the cached
parse when present; otherwise read the file (error when it does not
exist, `file = none`) and cache it. -/
def load_config (file : Option ConfigData) (st : LoaderState) :
    Except String (ConfigData × LoaderState) :=
  match st.config with
  | some c => .ok (c, st)
  | none =>
    match file with
    | none => .error "FileNotFoundError: configuration file not found"
    | some data =>
      .ok (data, { st with config := some data, file_reads := st.file_reads + 1 })

/-- `ModelConfigLoader.get_llm_config` (lines 39-60): load the config,
then fail when the `llms` section or the named entry is missing. -/
def get_llm_config (file : Option ConfigData) (st : LoaderState) (llm_name : String) :
    Except String (Params × LoaderState) :=
  match load_config file st with
  | .error e => .error e
  | .ok (cfg, st') =>
    match cfg.llms with
    | none => .error "KeyError: no llms section found in configuration"
    | some llms =>
      match (llms.find? fun p => p.1 == llm_name).map Prod.snd with
      | none => .error ("KeyError: LLM " ++ llm_name ++ " not found")
      | some entry => .ok (entry, st')

/-- `ModelConfigLoader.get_llm` (lines 62-93): on a cache miss or
forced reload, fetch the named entry, apply the defaults, construct
the client, store it, and return `self._llm_cache[llm_name]`; on a
cache hit return the stored client with the loader untouched. -/
def get_llm (file : Option ConfigData) (st : LoaderState) (llm_name : String)
    (force_reload : Bool) : Except String (Params × LoaderState) :=
  if force_reload || !(st.llm_cache.any fun p => p.1 == llm_name) then
    match get_llm_config file st llm_name with
    | .error e => .error e
    | .ok (llm_config, st') =>
      let llm := apply_defaults llm_config
      let st'' : LoaderState :=
        { st' with
          llm_cache := cacheInsert st'.llm_cache llm_name llm
          builds := st'.builds + 1 }
      .ok ((cacheLookup st''.llm_cache llm_name).getD llm, st'')
  else
    .ok ((cacheLookup st.llm_cache llm_name).getD [], st)

/-- `ModelConfigLoader.clear_llm_cache` (lines 104-113): `none` clears
everything; a name deletes that entry when present. -/
def clear_llm_cache (st : LoaderState) (llm_name : Option String) : LoaderState :=
  match llm_name with
  | none => { st with llm_cache := [] }
  | some name =>
    if st.llm_cache.any fun p => p.1 == name then
      { st with llm_cache := st.llm_cache.filter fun p => p.1 != name }
    else
      st

/-! ### Generic accumulation lemmas -/

theorem foldl_append_flatten {α β : Type} (f : α → List β) (l : List α) (init : List β) :
    l.foldl (fun acc x => acc ++ f x) init = init ++ (l.map f).flatten := by
  induction l generalizing init with
  | nil => simp
  | cons a t ih => simp [ih, List.append_assoc]

theorem foldl_str_append (l : List String) (init : String) :
    l.foldl (· ++ ·) init = init ++ String.join l := by
  induction l generalizing init with
  | nil => simp [String.join, String.append_empty]
  | cons a t ih =>
    have h : String.join (a :: t) = a ++ String.join t := by
      show t.foldl (· ++ ·) ("" ++ a) = a ++ String.join t
      rw [ih, String.empty_append]
    simp only [List.foldl_cons]
    rw [ih, h, String.append_assoc]

theorem foldl_append_join {α : Type} (f : α → String) (l : List α) (init : String) :
    l.foldl (fun acc x => acc ++ f x) init = init ++ String.join (l.map f) := by
  induction l generalizing init with
  | nil => simp [String.join, String.append_empty]
  | cons a t ih =>
    have h : String.join (f a :: t.map f) = f a ++ String.join (t.map f) := by
      show (t.map f).foldl (· ++ ·) ("" ++ f a) = f a ++ String.join (t.map f)
      rw [foldl_str_append, String.empty_append]
    simp only [List.foldl_cons, List.map_cons]
    rw [ih, h, String.append_assoc]

theorem foldl_filter_map {α β : Type} (p : α → Bool) (f : α → β) (l : List α)
    (init : List β) :
    l.foldl (fun acc x => if p x then acc ++ [f x] else acc) init
      = init ++ (l.filter p).map f := by
  induction l generalizing init with
  | nil => simp
  | cons a t ih => cases h : p a <;> simp [List.filter_cons, h, ih, List.append_assoc]

theorem flatten_filter_of_nil {α β : Type} (f : α → List β) (g : α → Bool) (l : List α)
    (h : ∀ x ∈ l, g x = false → f x = []) :
    (l.map f).flatten = ((l.filter g).map f).flatten := by
  induction l with
  | nil => rfl
  | cons a t ih =>
    have ht := fun x hx => h x (List.mem_cons_of_mem a hx)
    cases hg : g a with
    | false => simp [List.filter_cons, hg, h a (List.mem_cons_self a t) hg, ih ht]
    | true => simp [List.filter_cons, hg, ih ht]

/-! ### Facts about the engine dispatch -/

theorem ddg_contribution_eq_nil (env : SearchEnv) (query engine : String)
    (h : pyLower engine = "duckduckgo") :
    engine_contribution env query engine = [] := by
  have h1 : engine_branch env query engine
      = some (.error "TypeError: _search_with_duckduckgo() takes 1 positional argument but 2 were given") := by
    unfold engine_branch
    rw [if_neg (by rw [h]; decide), if_pos h]
  simp [engine_contribution, h1]

/-! ### Claim theorems -/

/-- Oracle for the C1 scenario: the reflection model always reports
insufficient evidence with one follow-up query. -/
def insufficientOracle : Nat → ReflectionOutput :=
  fun _ => ⟨false, "gap", ["follow-up"]⟩

/-- Initial run state for the C1 scenario: one initial query already
run, loop count 0, no per-run override of the loop bound. -/
def c1_initial_state : OverallState :=
  ⟨["q0"], ["n0"], 0, none⟩

/-- C1: `evaluate_research` continues to another web-research fan-out
iff `is_sufficient` is false and the reflection count is strictly
below the effective bound (per-run override when present, else the
configured default); and with a bound of 2 and an always-insufficient
reflection oracle, the run performs exactly 2 reflection rounds and
`research_loop_count` ends at 2. -/
theorem C1_loop_decision :
    (∀ (st : ReflectionState) (cfg : Nat),
        (evaluate_research st cfg).continues
          = (!st.is_sufficient
              && decide (st.research_loop_count < st.max_research_loops.getD cfg)))
      ∧ research_run 10 2 c1_initial_state insufficientOracle = (2, 2) := by
  constructor
  · intro st cfg
    by_cases hs : st.is_sufficient
    · simp [evaluate_research, Route.continues, hs]
    · by_cases hl : st.research_loop_count ≥ st.max_research_loops.getD cfg
      · simp [evaluate_research, Route.continues, hs, hl, Nat.not_lt.mpr hl]
      · simp [evaluate_research, Route.continues, hs, hl, Nat.lt_of_not_le hl]
  · rfl

/-- The two-message history used to compare the code's topic rendering
with the spec's newline-joined formula. -/
def c3_history : List Message :=
  [⟨.user, "a"⟩, ⟨.assistant, "b"⟩]

/-- C3 (counterexample): for the two-message history, the code's
research topic (`"User: a\nAssistant: b\n"`) is not the newline-joined
rendering (`"User: a\nAssistant: b"`) the claim describes: the code
terminates every rendered message with a newline instead of joining
with newlines. -/
theorem C3_counterexample :
    get_research_topic c3_history ≠ spec_topic_joined c3_history := by
  decide

/-- C3 (amended): a length-1 history yields the sole message's content
verbatim, and a longer history yields the concatenation of the
messages each rendered as `"<Role>: <content>"` followed by a newline
(so the result carries a trailing newline); the derivation is a pure
function of the history. -/
theorem C3_topic_amended :
    (∀ m : Message, get_research_topic [m] = m.content)
      ∧ ∀ messages : List Message, messages.length > 1 →
          get_research_topic messages = String.join (messages.map renderMessage) := by
  constructor
  · intro m
    simp [get_research_topic]
  · intro messages h
    have hne : ¬ messages.length = 1 := by omega
    simp only [get_research_topic, if_neg hne]
    rw [foldl_append_join, String.empty_append]

/-- C3 witness: the amended rendering rule evaluated on the concrete
two-message history. -/
theorem C3_topic_amended_witness :
    get_research_topic c3_history = String.join (c3_history.map renderMessage) :=
  C3_topic_amended.2 c3_history (by decide)

/-- C9: the duckduckgo engine contributes zero results for every
environment and query (the call site passes two arguments to the
one-parameter helper, so the branch raises and the aggregation loop
catches it), and the merged list equals what the remaining engines
alone produce. -/
theorem C9_duckduckgo_dead :
    ∀ (env : SearchEnv) (engines : List String) (query : String),
      engine_contribution env query "duckduckgo" = []
        ∧ web_research_aggregate env engines query
            = web_research_aggregate env
                (engines.filter fun e => pyLower e != "duckduckgo") query := by
  intro env engines query
  refine ⟨ddg_contribution_eq_nil env query _ (by decide), ?_⟩
  simp only [web_research_aggregate]
  rw [foldl_append_flatten, foldl_append_flatten]
  simp only [List.nil_append]
  refine flatten_filter_of_nil _ _ engines fun e _ hg => ?_
  refine ddg_contribution_eq_nil env query e ?_
  simpa using hg

/-- C2: per-engine isolation of the aggregation loop: the merged list
is the concatenation of the per-engine contributions in enumeration
order; an engine whose branch raises contributes the empty list
(caught, not propagated); if every engine contributes nothing the
merged list is `[]`, not an error; and an unknown engine name is
silently skipped. -/
theorem C2_aggregation_isolation :
    ∀ (env : SearchEnv) (engines : List String) (query : String),
      web_research_aggregate env engines query
          = (engines.map fun e => engine_contribution env query e).flatten
        ∧ (∀ e msg, engine_branch env query e = some (.error msg) →
            engine_contribution env query e = [])
        ∧ (engines.all (fun e => (engine_contribution env query e).isEmpty) = true →
            web_research_aggregate env engines query = [])
        ∧ ∀ e, engine_branch env query e = none →
            engine_contribution env query e = [] := by
  intro env engines query
  have hflat : web_research_aggregate env engines query
      = (engines.map fun e => engine_contribution env query e).flatten := by
    simp only [web_research_aggregate]
    rw [foldl_append_flatten]
    simp
  refine ⟨hflat, ?_, ?_, ?_⟩
  · intro e msg h
    simp [engine_contribution, h]
  · intro h
    rw [hflat, List.flatten_eq_nil_iff]
    intro x hx
    rcases List.mem_map.mp hx with ⟨e, he, rfl⟩
    have := List.all_eq_true.mp h e he
    simpa [List.isEmpty_iff] using this
  · intro e h
    simp [engine_contribution, h]

/-- A search-provider environment in which every provider raises. -/
def allFailEnv : SearchEnv :=
  ⟨fun _ => .error "boom", fun _ => .error "boom", fun _ => .error "boom"⟩

/-- C2 witness: with every provider raising, the three configured
engines plus an unknown one merge to the empty list; the raising
duckduckgo branch and the unknown engine each contribute nothing. -/
theorem C2_aggregation_isolation_witness :
    web_research_aggregate allFailEnv ["tavily", "duckduckgo", "arxiv", "bing"] "q" = []
      ∧ engine_contribution allFailEnv "q" "duckduckgo" = []
      ∧ engine_contribution allFailEnv "q" "bing" = [] :=
  ⟨(C2_aggregation_isolation allFailEnv ["tavily", "duckduckgo", "arxiv", "bing"] "q").2.2.1
      (by decide),
   (C2_aggregation_isolation allFailEnv [] "q").2.1 "duckduckgo"
      "TypeError: _search_with_duckduckgo() takes 1 positional argument but 2 were given"
      (by rfl),
   (C2_aggregation_isolation allFailEnv [] "q").2.2.2 "bing" (by rfl)⟩

/-- The first gathered source of the C4 scenario. -/
def c4_source_a : SourceRecord := ⟨"https://a.example", "A", "a-content"⟩

/-- The second gathered source of the C4 scenario. -/
def c4_source_b : SourceRecord := ⟨"https://b.example", "B", "b-content"⟩

/-- C4: `finalize_answer` keeps exactly the gathered sources whose url
occurs as a literal substring of the answer text, in original order;
on the two-record scenario with an answer citing only the first url,
the output is exactly the first record. -/
theorem C4_source_filter :
    (∀ (sources : List SourceRecord) (answer : String),
        finalize_sources sources answer
          = sources.filter fun s => containsSubstr answer s.url)
      ∧ finalize_sources [c4_source_a, c4_source_b]
          "Summary citing https://a.example only" = [c4_source_a] := by
  constructor
  · intro sources answer
    have h := foldl_filter_map (fun s : SourceRecord => containsSubstr answer s.url)
      (fun s => s) sources []
    simpa [finalize_sources] using h
  · decide

/-- The reflection-state of the C5 follow-up scenario: 3 queries ran,
reflection proposes 2 follow-ups, evidence insufficient, loop count
below the bound. -/
def c5_reflection_state : ReflectionState :=
  ⟨false, "", ["f1", "f2"], 1, 3, none⟩

/-- C5: initial fan-out assigns ids 0..N-1 by enumeration order;
whenever `evaluate_research` fans out follow-ups, their ids continue
from `number_of_ran_queries`; the `reflection` node sets
`number_of_ran_queries` to the number of queries run so far; and three
initial queries receive ids 0, 1, 2. -/
theorem C5_query_ids :
    (∀ queries : List String,
        (continue_to_web_research queries).map SendTask.id = List.range queries.length)
      ∧ (∀ (st : ReflectionState) (cfg : Nat) (sends : List SendTask),
          evaluate_research st cfg = .web_research sends →
            sends.map SendTask.id
              = (List.range st.follow_up_queries.length).map
                  (st.number_of_ran_queries + ·))
      ∧ (∀ (state : OverallState) (out : ReflectionOutput),
          (reflection state out).number_of_ran_queries = state.search_query.length)
      ∧ (continue_to_web_research ["q1", "q2", "q3"]).map SendTask.id = [0, 1, 2] := by
  refine ⟨?_, ?_, fun _ _ => rfl, by decide⟩
  · intro queries
    simp only [continue_to_web_research, List.map_map]
    have h : (SendTask.id ∘ fun p : Nat × String => (⟨p.2, p.1⟩ : SendTask)) = Prod.fst :=
      rfl
    rw [h, List.enum_map_fst]
  · intro st cfg sends h
    simp only [evaluate_research] at h
    split at h
    · exact absurd h (by simp)
    · have hs : (st.follow_up_queries.enum.map fun p =>
          (⟨p.2, st.number_of_ran_queries + p.1⟩ : SendTask)) = sends := by
        injection h
      rw [← hs, List.map_map]
      have h2 : (SendTask.id ∘ fun p : Nat × String =>
          (⟨p.2, st.number_of_ran_queries + p.1⟩ : SendTask))
            = (fun x => st.number_of_ran_queries + x) ∘ Prod.fst := rfl
      rw [h2, ← List.map_map, List.enum_map_fst]

/-- C5 witness: after 3 queries ran, the 2 follow-up fan-out tasks of
`evaluate_research` carry ids 3 and 4. -/
theorem C5_query_ids_witness :
    ([⟨"f1", 3⟩, ⟨"f2", 4⟩] : List SendTask).map SendTask.id
      = (List.range 2).map (3 + ·) :=
  C5_query_ids.2.1 c5_reflection_state 5 [⟨"f1", 3⟩, ⟨"f2", 4⟩] (by decide)

/-- C6: the snippet equals the content unchanged when its length is at
most 200 characters; when longer, it is exactly the first 200
characters followed by the three-character ellipsis marker (so its
length is 203 and its first 200 characters are the content's). -/
theorem C6_truncation :
    ∀ content : String,
      (content.length ≤ 200 → truncate_content content = content)
        ∧ (content.length > 200 →
            truncate_content content = String.mk (content.data.take 200) ++ "..."
              ∧ (truncate_content content).length = 203
              ∧ (truncate_content content).data.take 200 = content.data.take 200) := by
  intro content
  constructor
  · intro h
    simp only [truncate_content]
    rw [if_neg (by omega)]
  · intro h
    have e : truncate_content content = String.mk (content.data.take 200) ++ "..." := by
      simp only [truncate_content]
      rw [if_pos h]
    refine ⟨e, ?_, ?_⟩
    · rw [e, String.length_append]
      have hl : (String.mk (content.data.take 200)).length = 200 := by
        show (content.data.take 200).length = 200
        rw [List.length_take]
        have : content.length = content.data.length := rfl
        omega
      rw [hl]
      rfl
    · rw [e, String.data_append]
      show (content.data.take 200 ++ "...".data).take 200 = content.data.take 200
      refine List.take_left' ?_
      rw [List.length_take]
      have : content.length = content.data.length := rfl
      omega

/-- A string of `n` copies of the character `a`. -/
def repChar (n : Nat) : String := String.mk (List.replicate n 'a')

set_option maxRecDepth 10000 in
/-- C6 witness: the truncation rule evaluated at lengths 199, 200,
201 and 500. -/
theorem C6_truncation_witness :
    truncate_content (repChar 199) = repChar 199
      ∧ truncate_content (repChar 200) = repChar 200
      ∧ truncate_content (repChar 201) = String.mk ((repChar 201).data.take 200) ++ "..."
      ∧ (truncate_content (repChar 500)).length = 203 :=
  ⟨(C6_truncation (repChar 199)).1 (by decide),
   (C6_truncation (repChar 200)).1 (by decide),
   ((C6_truncation (repChar 201)).2 (by decide)).1,
   ((C6_truncation (repChar 500)).2 (by decide)).2.1⟩

/-- C7: the prompt context block renders exactly the first 10 merged
results in aggregation order, each as
`"<index>. <title>\n<content>\n来源: <url>\n\n"` with the index
starting at 1 (`render_result` prints index plus one), while a source
record is derived for every aggregated result with a non-empty url,
including results beyond the top 10. -/
theorem C7_context_and_sources :
    ∀ results : List SearchResult,
      search_context results = search_context (results.take 10)
        ∧ search_context results
            = "\n\n搜索结果:\n"
                ++ String.join ((results.take 10).enum.map render_result)
        ∧ sources_from_results results
            = (results.filter fun r => r.url != "").map make_source := by
  intro results
  refine ⟨?_, ?_, ?_⟩
  · have h : (results.take 10).take 10 = results.take 10 := by
      simp [List.take_take]
    simp only [search_context, h]
  · unfold search_context
    exact foldl_append_join render_result (results.take 10).enum "\n\n搜索结果:\n"
  · have h := foldl_filter_map (fun r : SearchResult => r.url != "") make_source results []
    simpa [sources_from_results] using h

/-! ### Association-list lemmas for the configuration maps -/

theorem assoc_any_eq_isSome {β : Type} (l : List (String × β)) (k : String) :
    (l.any fun p => p.1 == k) = (l.find? fun p => p.1 == k).isSome := by
  induction l with
  | nil => rfl
  | cons a t ih => cases ha : a.1 == k <;> simp [List.find?, ha, ih, List.any_cons]

theorem assoc_find_append {β : Type} (l : List (String × β)) (k0 k : String) (v : β) :
    ((l ++ [(k0, v)]).find? fun p => p.1 == k).map Prod.snd
      = (((l.find? fun p => p.1 == k).map Prod.snd).or
          (if k == k0 then some v else none)) := by
  rw [List.find?_append]
  cases hf : l.find? fun p => p.1 == k with
  | some w => simp
  | none =>
    by_cases h0 : k = k0
    · subst h0
      simp [List.find?]
    · have h1 : (k0 == k) = false := beq_eq_false_iff_ne.mpr (Ne.symm h0)
      simp [List.find?, h0, h1]

theorem hasKey_eq_isSome (ps : Params) (k : String) :
    hasKey ps k = (ps.find? fun p => p.1 == k).isSome :=
  assoc_any_eq_isSome ps k

theorem getVal_none_of_hasKey_false (ps : Params) (k : String)
    (h : hasKey ps k = false) : getVal ps k = none := by
  rw [hasKey_eq_isSome] at h
  simp only [getVal]
  cases hf : ps.find? fun p => p.1 == k with
  | none => rfl
  | some w => rw [hf] at h; simp at h

theorem getVal_add_default (ps : Params) (k0 k : String) (v : ConfigValue) :
    getVal (add_default ps k0 v) k
      = (getVal ps k).or (if (k == k0) && !hasKey ps k0 then some v else none) := by
  simp only [add_default]
  by_cases h : hasKey ps k0
  · rw [if_pos h, h]
    simp
  · have h' : hasKey ps k0 = false := by simpa using h
    rw [if_neg h, h']
    have := assoc_find_append ps k0 k v
    simp only [getVal]
    rw [this]
    simp

theorem hasKey_add_default (ps : Params) (k0 k : String) (v : ConfigValue) :
    hasKey (add_default ps k0 v) k
      = (hasKey ps k || ((k == k0) && !hasKey ps k0)) := by
  simp only [add_default]
  by_cases h : hasKey ps k0
  · rw [if_pos h, h]
    simp
  · have h' : hasKey ps k0 = false := by simpa using h
    rw [if_neg h, h']
    by_cases h0 : k = k0
    · subst h0
      simp [hasKey, List.any_append]
    · have h1 : (k0 == k) = false := beq_eq_false_iff_ne.mpr (Ne.symm h0)
      have h2 : (k == k0) = false := beq_eq_false_iff_ne.mpr h0
      simp [hasKey, List.any_append, h1, h2]

/-- C8: building a client from a named entry applies the defaults
`temperature = 0.7`, `max_retries = 2`, `streaming = off` exactly for
the fields absent from the entry; every field present in the entry is
passed through unchanged. -/
theorem C8_llm_defaults :
    ∀ (cfg : Params) (k : String),
      getVal (apply_defaults cfg) k =
        if k == "temperature" && !hasKey cfg "temperature" then some (.num (7 / 10))
        else if k == "max_retries" && !hasKey cfg "max_retries" then some (.num 2)
        else if k == "streaming" && !hasKey cfg "streaming" then some (.bool false)
        else getVal cfg k := by
  intro cfg k
  have e1 : (("max_retries" : String) == "temperature") = false := by decide
  have e2 : (("streaming" : String) == "temperature") = false := by decide
  have e3 : (("streaming" : String) == "max_retries") = false := by decide
  simp only [apply_defaults, getVal_add_default, hasKey_add_default, e1, e2, e3,
    Bool.false_and, Bool.or_false, if_false]
  by_cases hk1 : k = "temperature"
  · subst hk1
    have f1 : (("temperature" : String) == "max_retries") = false := by decide
    have f2 : (("temperature" : String) == "streaming") = false := by decide
    cases h1 : hasKey cfg "temperature" with
    | false => simp [f1, f2, h1, getVal_none_of_hasKey_false cfg "temperature" h1]
    | true => simp [f1, f2, h1]
  · have g1 : (k == "temperature") = false := beq_eq_false_iff_ne.mpr hk1
    by_cases hk2 : k = "max_retries"
    · subst hk2
      have f3 : (("max_retries" : String) == "streaming") = false := by decide
      cases h2 : hasKey cfg "max_retries" with
      | false => simp [g1, f3, h2, getVal_none_of_hasKey_false cfg "max_retries" h2]
      | true => simp [g1, f3, h2]
    · have g2 : (k == "max_retries") = false := beq_eq_false_iff_ne.mpr hk2
      by_cases hk3 : k = "streaming"
      · subst hk3
        cases h3 : hasKey cfg "streaming" with
        | false => simp [g1, g2, h3, getVal_none_of_hasKey_false cfg "streaming" h3]
        | true => simp [g1, g2, h3]
      · have g3 : (k == "streaming") = false := beq_eq_false_iff_ne.mpr hk3
        simp [g1, g2, g3]

/-! ### Cache lemmas for the loader -/

theorem cacheLookup_cons (a : String × Params) (t : List (String × Params)) (k : String) :
    cacheLookup (a :: t) k = if a.1 == k then some a.2 else cacheLookup t k := by
  simp only [cacheLookup]
  by_cases ha : (a.1 == k) = true
  · rw [List.find?_cons_of_pos t ha]
    simp [ha]
  · rw [List.find?_cons_of_neg t ha]
    simp [Bool.eq_false_iff.mpr ha]

theorem cacheLookup_map_update (c : List (String × Params)) (k : String) (v : Params) :
    cacheLookup (c.map fun p => if p.1 == k then (k, v) else p) k
      = if c.any (fun p => p.1 == k) then some v else none := by
  induction c with
  | nil => rfl
  | cons a t ih =>
    simp only [List.map_cons, List.any_cons]
    by_cases ha : (a.1 == k) = true
    · rw [if_pos ha, cacheLookup_cons,
        if_pos (show (((k, v) : String × Params).1 == k) = true from beq_self_eq_true k)]
      simp only [ha, Bool.true_or]
      simp
    · have ha' : (a.1 == k) = false := Bool.eq_false_iff.mpr ha
      rw [if_neg ha, cacheLookup_cons, if_neg ha]
      simp only [ha', Bool.false_or]
      exact ih

theorem cacheLookup_insert_self (c : List (String × Params)) (k : String) (v : Params) :
    cacheLookup (cacheInsert c k v) k = some v := by
  simp only [cacheInsert]
  by_cases h : (c.any fun p => p.1 == k) = true
  · rw [if_pos h, cacheLookup_map_update, if_pos h]
  · rw [if_neg h]
    have h' : (c.any fun p => p.1 == k) = false := Bool.eq_false_iff.mpr h
    rw [assoc_any_eq_isSome] at h'
    have hf : (c.find? fun p => p.1 == k) = none := by
      cases hf : c.find? fun p => p.1 == k with
      | none => rfl
      | some w => rw [hf] at h'; simp at h'
    show ((c ++ [(k, v)]).find? fun p => p.1 == k).map Prod.snd = some v
    rw [List.find?_append, hf, Option.none_or]
    show cacheLookup [(k, v)] k = some v
    rw [cacheLookup_cons]
    simp

theorem any_eq_true_of_cacheLookup (c : List (String × Params)) (k : String) (v : Params)
    (h : cacheLookup c k = some v) : (c.any fun p => p.1 == k) = true := by
  rw [assoc_any_eq_isSome]
  simp only [cacheLookup] at h
  cases hf : c.find? fun p => p.1 == k with
  | none => rw [hf] at h; simp at h
  | some w => simp

theorem cacheLookup_filter_ne (c : List (String × Params)) (name k : String)
    (hk : k ≠ name) :
    cacheLookup (c.filter fun p => p.1 != name) k = cacheLookup c k := by
  induction c with
  | nil => rfl
  | cons a t ih =>
    simp only [List.filter_cons]
    by_cases ha : a.1 = name
    · have h1 : (a.1 != name) = false := by simp [ha]
      have h2 : (a.1 == k) = false := beq_eq_false_iff_ne.mpr (ha ▸ Ne.symm hk)
      rw [if_neg (by simp [h1]), cacheLookup_cons, if_neg (by simp [h2])]
      exact ih
    · have h1 : (a.1 != name) = true := bne_iff_ne.mpr ha
      rw [if_pos h1, cacheLookup_cons, cacheLookup_cons]
      by_cases hak : (a.1 == k) = true
      · rw [if_pos hak, if_pos hak]
      · rw [if_neg hak, if_neg hak]
        exact ih

theorem cacheLookup_filter_self (c : List (String × Params)) (name : String) :
    cacheLookup (c.filter fun p => p.1 != name) name = none := by
  induction c with
  | nil => rfl
  | cons a t ih =>
    simp only [List.filter_cons]
    by_cases ha : a.1 = name
    · rw [if_neg (by simp [ha])]
      exact ih
    · rw [if_pos (bne_iff_ne.mpr ha), cacheLookup_cons,
        if_neg (by simp [beq_eq_false_iff_ne.mpr ha])]
      exact ih

/-- On a cache miss (or a forced reload) with the named entry present,
`get_llm` builds the client, stores it, and returns it together with
the updated loader. -/
theorem get_llm_miss (file : Option ConfigData) (st : LoaderState) (name : String)
    (fr : Bool) (cfg0 : Params) (st' : LoaderState)
    (hcond : (fr || !(st.llm_cache.any fun p => p.1 == name)) = true)
    (hc : get_llm_config file st name = .ok (cfg0, st')) :
    get_llm file st name fr
      = .ok (apply_defaults cfg0,
          { st' with
            llm_cache := cacheInsert st'.llm_cache name (apply_defaults cfg0)
            builds := st'.builds + 1 }) := by
  simp only [get_llm]
  rw [if_pos hcond, hc]
  simp only [cacheLookup_insert_self]
  rfl

/-- On a cache hit with `force_reload = False`, `get_llm` returns the
stored client and leaves the loader untouched. -/
theorem get_llm_hit (file : Option ConfigData) (st : LoaderState) (name : String)
    (v : Params) (hv : cacheLookup st.llm_cache name = some v) :
    get_llm file st name false = .ok (v, st) := by
  have hany := any_eq_true_of_cacheLookup st.llm_cache name v hv
  simp only [get_llm]
  rw [if_neg (by simp [hany]), hv]
  rfl

/-- C10: after any successful `get_llm` call, the returned client is
in the cache under its name, and a subsequent call without
`force_reload` returns the identical client with the loader state
unchanged (no rebuild, no configuration re-read); `clear_llm_cache`
with a name removes exactly that entry and leaves every other cached
name untouched. -/
theorem C10_llm_cache :
    (∀ (file : Option ConfigData) (st : LoaderState) (name : String) (fr : Bool)
        (llm : Params) (st₁ : LoaderState),
        get_llm file st name fr = .ok (llm, st₁) →
          cacheLookup st₁.llm_cache name = some llm
            ∧ get_llm file st₁ name false = .ok (llm, st₁))
      ∧ (∀ (st : LoaderState) (name : String),
          (clear_llm_cache st (some name)).llm_cache
            = st.llm_cache.filter fun p => p.1 != name)
      ∧ (∀ (st : LoaderState) (name k : String), k ≠ name →
          cacheLookup (clear_llm_cache st (some name)).llm_cache k
            = cacheLookup st.llm_cache k)
      ∧ ∀ (st : LoaderState) (name : String),
          cacheLookup (clear_llm_cache st (some name)).llm_cache name = none := by
  have hclear : ∀ (st : LoaderState) (name : String),
      (clear_llm_cache st (some name)).llm_cache
        = st.llm_cache.filter fun p => p.1 != name := by
    intro st name
    simp only [clear_llm_cache]
    by_cases h : (st.llm_cache.any fun p => p.1 == name) = true
    · rw [if_pos h]
    · rw [if_neg h]
      have h' : (st.llm_cache.any fun p => p.1 == name) = false := Bool.eq_false_iff.mpr h
      have hall : ∀ p ∈ st.llm_cache, (p.1 != name) = true := by
        intro p hp
        have hb := List.any_eq_false.mp h' p hp
        exact bne_iff_ne.mpr fun hEq => hb (beq_iff_eq.mpr hEq)
      exact (List.filter_eq_self.mpr hall).symm
  refine ⟨?_, hclear, ?_, ?_⟩
  · intro file st name fr llm st₁ h
    by_cases hcond : (fr || !(st.llm_cache.any fun p => p.1 == name)) = true
    · cases hc : get_llm_config file st name with
      | error e =>
        have hrun : get_llm file st name fr = .error e := by
          simp only [get_llm]
          rw [if_pos hcond, hc]
        rw [hrun] at h
        exact absurd h (by simp)
      | ok pr =>
        obtain ⟨cfg0, st'⟩ := pr
        have hrun := get_llm_miss file st name fr cfg0 st' hcond hc
        rw [hrun] at h
        injection h with h2
        obtain ⟨h3, h4⟩ := Prod.ext_iff.mp h2
        subst h4
        subst h3
        refine ⟨cacheLookup_insert_self st'.llm_cache name (apply_defaults cfg0), ?_⟩
        exact get_llm_hit file _ name _
          (cacheLookup_insert_self st'.llm_cache name (apply_defaults cfg0))
    · have hcond' : (fr || !(st.llm_cache.any fun p => p.1 == name)) = false := by
        simpa using hcond
      have hfr : fr = false := by
        cases fr
        · rfl
        · rw [Bool.true_or] at hcond'; exact absurd hcond' (by simp)
      have hany : (st.llm_cache.any fun p => p.1 == name) = true := by
        subst hfr
        rw [Bool.false_or] at hcond'
        simpa using hcond'
      have hsome : ∃ w, cacheLookup st.llm_cache name = some w := by
        rw [assoc_any_eq_isSome] at hany
        rcases Option.isSome_iff_exists.mp hany with ⟨a, ha⟩
        exact ⟨a.2, by simp [cacheLookup, ha]⟩
      rcases hsome with ⟨w, hw⟩
      subst hfr
      have hrun := get_llm_hit file st name w hw
      rw [hrun] at h
      injection h with h2
      obtain ⟨h3, h4⟩ := Prod.ext_iff.mp h2
      subst h4
      subst h3
      exact ⟨hw, hrun⟩
  · intro st name k hk
    rw [hclear]
    exact cacheLookup_filter_ne st.llm_cache name k hk
  · intro st name
    rw [hclear]
    exact cacheLookup_filter_self st.llm_cache name

/-- The configuration file of the C10 scenario. -/
def c10_file : Option ConfigData :=
  some ⟨some [("basic", [("model", .str "qwen3-235b-a22b")])]⟩

/-- The client the C10 scenario builds for the `basic` entry. -/
def c10_llm : Params :=
  [("model", .str "qwen3-235b-a22b"), ("temperature", .num (7 / 10)),
   ("max_retries", .num 2), ("streaming", .bool false)]

/-- The loader state after the first `get_llm` call of the C10
scenario. -/
def c10_state1 : LoaderState :=
  ⟨some ⟨some [("basic", [("model", .str "qwen3-235b-a22b")])]⟩, [("basic", c10_llm)], 1, 1⟩

/-- C10 witness: the cache behaviour evaluated on a concrete
configuration: the first call caches the built client, the second call
returns it with the loader unchanged, and clearing an unrelated name
leaves the entry visible. -/
theorem C10_llm_cache_witness :
    (cacheLookup c10_state1.llm_cache "basic" = some c10_llm
        ∧ get_llm c10_file c10_state1 "basic" false = .ok (c10_llm, c10_state1))
      ∧ cacheLookup (clear_llm_cache c10_state1 (some "other")).llm_cache "basic"
          = cacheLookup c10_state1.llm_cache "basic" :=
  ⟨C10_llm_cache.1 c10_file ⟨none, [], 0, 0⟩ "basic" false c10_llm c10_state1 (by rfl),
   C10_llm_cache.2.2.1 c10_state1 "other" "basic" (by decide)⟩

end Sophon
